import Mathlib

/-!
Shallow embedding of the polarphp request core:
  src/include/polarphp/ast/SimpleRequest.h
  src/include/polarphp/basic/CTypeIdZoneDefs.h

A request kind is the class template SimpleRequest<Derived, Caching, Output,
Inputs...>.  The embedding keeps the input tuple as a dependent function over
Fin n (position i holds a value of the declared input type at position i),
which is the shape of std::tuple<Inputs...>.  The kind identity
TypeId<Derived>::value is a (zone, local id) pair; the machinery that
assigns it (TypeId.h) is referenced by the header but is not among the
sources, so its assignment rule is modelled from the specification where
noted.
-/

namespace Polar

/-- A type identity: the (zone, local id) pair the registry assigns to one
concrete type. -/
structure TypeIdentity where
  zoneId : Nat
  localId : Nat
  deriving DecidableEq, Repr

/-- SimpleRequest<Derived, Caching, Output, Inputs...>: the one data member is
the stored input tuple, std::tuple<Inputs...> m_storage, fixed by the
constructor SimpleRequest(const Inputs and ...inputs) : m_storage(inputs...). -/
structure SimpleRequest (n : Nat) (τ : Fin n → Type) : Type where
  m_storage : (i : Fin n) → τ i

/-- Equality of std::tuple values: the conjunction of the element
comparisons, one per position. -/
def stdTupleEq {n : Nat} {τ : Fin n → Type} [∀ i, DecidableEq (τ i)]
    (x y : (i : Fin n) → τ i) : Bool :=
  (List.finRange n).all fun i => decide (x i = y i)

/-- friend bool operator==(const SimpleRequest and lhs, const SimpleRequest and rhs):
returns lhs.m_storage == rhs.m_storage, the std::tuple comparison. -/
def SimpleRequest.opEq {n : Nat} {τ : Fin n → Type} [∀ i, DecidableEq (τ i)]
    (lhs rhs : SimpleRequest n τ) : Bool :=
  stdTupleEq lhs.m_storage rhs.m_storage

/-- friend bool operator!=(const SimpleRequest and lhs, const SimpleRequest and rhs):
returns the negation of operator==. -/
def SimpleRequest.opNe {n : Nat} {τ : Fin n → Type} [∀ i, DecidableEq (τ i)]
    (lhs rhs : SimpleRequest n τ) : Bool :=
  !(SimpleRequest.opEq lhs rhs)

/-- friend HashCode hash_value(const SimpleRequest and request): returns
hash_combine(TypeId<Derived>::value, request.m_storage).  The hash_combine
routine lives outside these sources, so it is kept abstract: the embedding
quantifies over it, recording only that the hash is that routine applied to
exactly the kind identity and the stored tuple. -/
def hash_value {n : Nat} {τ : Fin n → Type}
    (hashCombine : TypeIdentity → ((i : Fin n) → τ i) → Nat)
    (kindId : TypeIdentity) (request : SimpleRequest n τ) : Nat :=
  hashCombine kindId request.m_storage

theorem stdTupleEq_eq_true_iff {n : Nat} {τ : Fin n → Type}
    [∀ i, DecidableEq (τ i)] (x y : (i : Fin n) → τ i) :
    stdTupleEq x y = true ↔ ∀ i, x i = y i := by
  simp [stdTupleEq, List.all_eq_true, List.mem_finRange]

/-- C1: operator== on SimpleRequest returns true exactly when the stored
tuples compare equal element by element. -/
theorem opEq_true_iff_elementwise {n : Nat} {τ : Fin n → Type}
    [∀ i, DecidableEq (τ i)] (r1 r2 : SimpleRequest n τ) :
    SimpleRequest.opEq r1 r2 = true ↔ ∀ i, r1.m_storage i = r2.m_storage i :=
  stdTupleEq_eq_true_iff r1.m_storage r2.m_storage

/-- C2: hash_value is the hash-combine routine applied to exactly the kind
identity and the stored tuple, and it is consistent with equality: two
same-kind requests that compare equal hash identically, for every
hash-combine routine. -/
theorem hash_value_pure_and_consistent {n : Nat} {τ : Fin n → Type}
    [∀ i, DecidableEq (τ i)]
    (hashCombine : TypeIdentity → ((i : Fin n) → τ i) → Nat)
    (kindId : TypeIdentity) (r1 r2 : SimpleRequest n τ)
    (h : SimpleRequest.opEq r1 r2 = true) :
    hash_value hashCombine kindId r1 = hashCombine kindId r1.m_storage ∧
    hash_value hashCombine kindId r1 = hash_value hashCombine kindId r2 := by
  refine ⟨rfl, ?_⟩
  have hst : r1.m_storage = r2.m_storage :=
    funext fun i => (stdTupleEq_eq_true_iff r1.m_storage r2.m_storage).mp h i
  simp [hash_value, hst]

/-- C2 witness: two concrete one-input requests holding the value 5 compare
equal, and their hashes under a concrete hash-combine routine coincide. -/
theorem hash_value_pure_and_consistent_witness :
    hash_value (fun (k : TypeIdentity) (s : (i : Fin 1) → Nat) => k.localId + s 0) ⟨0, 3⟩
        (⟨fun _ => (5 : Nat)⟩ : SimpleRequest 1 (fun _ => Nat)) =
      hash_value (fun (k : TypeIdentity) (s : (i : Fin 1) → Nat) => k.localId + s 0) ⟨0, 3⟩ ⟨fun _ => (5 : Nat)⟩ :=
  (hash_value_pure_and_consistent (fun (k : TypeIdentity) (s : (i : Fin 1) → Nat) => k.localId + s 0) ⟨0, 3⟩
      ⟨fun _ => (5 : Nat)⟩ ⟨fun _ => (5 : Nat)⟩ (by decide)).2

/-- The static assertion in callDerived:
static_assert(sizeof...(Indices) > 0, "Subclass must define evaluate()").
The index pack has one index per declared input, so the assertion holds
exactly when the input tuple is non-empty; instantiating callDerived (and so
evaluateRequest) for a kind with no inputs fails to build. -/
def callDerivedStaticAssert (n : Nat) : Bool :=
  decide (0 < n)

/-- The evaluation operation the Derived class supplies:
Expected<Output> evaluate(Evaluator and evaluator, Inputs...) const.
Failure is a value (the error alternative of Expected). -/
structure RequestKindEval (E : Type) (n : Nat) (τ : Fin n → Type)
    (Error Output : Type) where
  evaluate : E → ((i : Fin n) → τ i) → Except Error Output

/-- callDerived(evaluator, index_sequence<Indices...>): after the static
assertion, returns asDerived().evaluate(evaluator, std::get<Indices>(m_storage)...)
where the index sequence is index_sequence_for<Inputs...>, the positions
0, 1, ..., n-1 in declared order; the arguments are therefore the stored
tuple, element by element, in declared order. -/
def callDerived {E : Type} {n : Nat} {τ : Fin n → Type} {Error Output : Type}
    (derived : RequestKindEval E n τ Error Output)
    (request : SimpleRequest n τ) (evaluator : E)
    (h : callDerivedStaticAssert n = true) : Except Error Output :=
  derived.evaluate evaluator request.m_storage

/-- static Expected<OutputType> evaluateRequest(const Derived and request,
Evaluator and evaluator): returns request.callDerived(evaluator,
index_sequence_for<Inputs...>()). -/
def evaluateRequest {E : Type} {n : Nat} {τ : Fin n → Type}
    {Error Output : Type}
    (derived : RequestKindEval E n τ Error Output)
    (request : SimpleRequest n τ) (evaluator : E)
    (h : callDerivedStaticAssert n = true) : Except Error Output :=
  callDerived derived request evaluator h

/-- C3: evaluateRequest returns exactly the result of the kind evaluate
function applied to the stored inputs, and failures propagate unchanged: an
error result comes back as that same error, a success as that same value,
with no retry, suppression, transformation or default substituted. -/
theorem evaluateRequest_exact {E : Type} {n : Nat} {τ : Fin n → Type}
    {Error Output : Type}
    (derived : RequestKindEval E n τ Error Output)
    (request : SimpleRequest n τ) (evaluator : E)
    (h : callDerivedStaticAssert n = true) :
    evaluateRequest derived request evaluator h =
      derived.evaluate evaluator request.m_storage ∧
    (∀ e : Error, derived.evaluate evaluator request.m_storage = Except.error e →
      evaluateRequest derived request evaluator h = Except.error e) ∧
    (∀ v : Output, derived.evaluate evaluator request.m_storage = Except.ok v →
      evaluateRequest derived request evaluator h = Except.ok v) :=
  ⟨rfl, fun _ he => he, fun _ hv => hv⟩

/-- C3 witness: a concrete kind whose evaluate always fails with its input
value; evaluateRequest on a request storing 5 returns exactly error 5. -/
theorem evaluateRequest_exact_witness :
    evaluateRequest (⟨fun _ s => Except.error (s 0)⟩ :
        RequestKindEval Unit 1 (fun _ => Nat) Nat Nat)
      ⟨fun _ => (5 : Nat)⟩ () (by decide) = Except.error 5 :=
  (evaluateRequest_exact (⟨fun _ s => Except.error (s 0)⟩ :
        RequestKindEval Unit 1 (fun _ => Nat) Nat Nat)
      ⟨fun _ => (5 : Nat)⟩ () (by decide)).2.1 5 rfl

/-- C10: the static assertion of callDerived rejects an empty input pack and
accepts exactly the non-empty ones: a kind with zero declared inputs cannot
instantiate evaluateRequest, so every evaluable request carries at least one
input. -/
theorem callDerivedStaticAssert_spec :
    callDerivedStaticAssert 0 = false ∧
    ∀ n : Nat, callDerivedStaticAssert n = true ↔ 0 < n := by
  constructor
  · rfl
  · intro n
    simp [callDerivedStaticAssert]

/-- One diagnostic as the DiagnosticEngine receives it from diagnose(loc,
diag, args...): the location, the diagnostic template and the argument
tuple. -/
structure EmittedDiag (Loc DiagId Args : Type) where
  loc : Loc
  diagId : DiagId
  args : Args
  deriving Repr

/-- diags.diagnose(loc, diag, args...): the engine, modelled as the list of
diagnostics emitted so far, receives one more diagnostic. -/
def diagnose {Loc DiagId Args : Type} (engine : List (EmittedDiag Loc DiagId Args))
    (loc : Loc) (d : DiagId) (args : Args) : List (EmittedDiag Loc DiagId Args) :=
  engine ++ [⟨loc, d, args⟩]

/-- The templated cycle-diagnostic variant the Derived class may supply:
T getCycleDiagnosticLoc(Inputs...) const, plus the two static diagnostic
templates cycleDiagnostic and cycleStepDiagnostic of type Diag<Inputs...>. -/
structure TemplatedCycleHooks (n : Nat) (τ : Fin n → Type)
    (Loc DiagId : Type) where
  getCycleDiagnosticLoc : ((i : Fin n) → τ i) → Loc
  cycleDiagnostic : DiagId
  cycleStepDiagnostic : DiagId

/-- diagnoseImpl(diags, diag, index_sequence<Indices...>): calls
diags.diagnose(asDerived().getCycleDiagnosticLoc(std::get<Indices>(m_storage)...),
diag, std::get<Indices>(m_storage)...), the index sequence again being the
positions 0..n-1 in declared order. -/
def diagnoseImpl {n : Nat} {τ : Fin n → Type} {Loc DiagId : Type}
    (hooks : TemplatedCycleHooks n τ Loc DiagId) (request : SimpleRequest n τ)
    (d : DiagId)
    (engine : List (EmittedDiag Loc DiagId ((i : Fin n) → τ i))) :
    List (EmittedDiag Loc DiagId ((i : Fin n) → τ i)) :=
  diagnose engine (hooks.getCycleDiagnosticLoc request.m_storage) d
    request.m_storage

/-- void diagnoseCycle(DiagnosticEngine and diags) const: calls
diagnoseImpl(diags, Derived::cycleDiagnostic, index_sequence_for<Inputs...>()). -/
def SimpleRequest.diagnoseCycle {n : Nat} {τ : Fin n → Type} {Loc DiagId : Type}
    (hooks : TemplatedCycleHooks n τ Loc DiagId) (request : SimpleRequest n τ)
    (engine : List (EmittedDiag Loc DiagId ((i : Fin n) → τ i))) :
    List (EmittedDiag Loc DiagId ((i : Fin n) → τ i)) :=
  diagnoseImpl hooks request hooks.cycleDiagnostic engine

/-- void noteCycleStep(DiagnosticEngine and diags) const: calls
diagnoseImpl(diags, Derived::cycleStepDiagnostic, index_sequence_for<Inputs...>()). -/
def SimpleRequest.noteCycleStep {n : Nat} {τ : Fin n → Type} {Loc DiagId : Type}
    (hooks : TemplatedCycleHooks n τ Loc DiagId) (request : SimpleRequest n τ)
    (engine : List (EmittedDiag Loc DiagId ((i : Fin n) → τ i))) :
    List (EmittedDiag Loc DiagId ((i : Fin n) → τ i)) :=
  diagnoseImpl hooks request hooks.cycleStepDiagnostic engine

/-- C5: with the templated variant, diagnoseCycle appends exactly one
diagnostic built from cycleDiagnostic and noteCycleStep exactly one from
cycleStepDiagnostic, each located at getCycleDiagnosticLoc applied to the
stored inputs and each carrying the stored inputs, in declared order, as its
arguments. -/
theorem templated_cycle_hooks_emit_exactly_one {n : Nat} {τ : Fin n → Type}
    {Loc DiagId : Type}
    (hooks : TemplatedCycleHooks n τ Loc DiagId) (request : SimpleRequest n τ)
    (engine : List (EmittedDiag Loc DiagId ((i : Fin n) → τ i))) :
    SimpleRequest.diagnoseCycle hooks request engine =
      engine ++ [⟨hooks.getCycleDiagnosticLoc request.m_storage,
                  hooks.cycleDiagnostic, request.m_storage⟩] ∧
    SimpleRequest.noteCycleStep hooks request engine =
      engine ++ [⟨hooks.getCycleDiagnosticLoc request.m_storage,
                  hooks.cycleStepDiagnostic, request.m_storage⟩] ∧
    (SimpleRequest.diagnoseCycle hooks request engine).length =
      engine.length + 1 ∧
    (SimpleRequest.noteCycleStep hooks request engine).length =
      engine.length + 1 := by
  refine ⟨rfl, rfl, ?_, ?_⟩ <;>
    simp [SimpleRequest.diagnoseCycle, SimpleRequest.noteCycleStep,
      diagnoseImpl, diagnose]

/-- The direct cycle-diagnostic variant the Derived class may supply:
void diagnoseCycle(DiagnosticEngine and diags) const and
void noteCycleStep(DiagnosticEngine and diags) const, with full control over
what they emit; each is modelled as an arbitrary transformation of the
engine. -/
structure DirectCycleHooks (Engine : Type) where
  diagnoseCycle : Engine → Engine
  noteCycleStep : Engine → Engine

/-- What a concrete request kind declares towards cycle diagnostics: it may
supply the direct variant, the templated variant, both, or neither. -/
structure KindCycleDecl (n : Nat) (τ : Fin n → Type) (Loc DiagId : Type) where
  direct : Option (DirectCycleHooks
    (List (EmittedDiag Loc DiagId ((i : Fin n) → τ i))))
  templated : Option (TemplatedCycleHooks n τ Loc DiagId)

/-- Member lookup for the cycle hooks on a concrete kind, as the language
resolves it: a diagnoseCycle/noteCycleStep pair declared in the Derived class
hides the base-class members, so the direct variant wins whenever it is
present; otherwise the base-class members are instantiated, and their bodies
name Derived::cycleDiagnostic, Derived::cycleStepDiagnostic and
getCycleDiagnosticLoc, which fail to compile (none) when the templated
variant is absent too. -/
def resolveCycleHooks {n : Nat} {τ : Fin n → Type} {Loc DiagId : Type}
    (kind : KindCycleDecl n τ Loc DiagId) (request : SimpleRequest n τ) :
    Option ((List (EmittedDiag Loc DiagId ((i : Fin n) → τ i)) →
              List (EmittedDiag Loc DiagId ((i : Fin n) → τ i))) ×
            (List (EmittedDiag Loc DiagId ((i : Fin n) → τ i)) →
              List (EmittedDiag Loc DiagId ((i : Fin n) → τ i)))) :=
  match kind.direct with
  | some d => some (d.diagnoseCycle, d.noteCycleStep)
  | none =>
    match kind.templated with
    | some hooks =>
      some (SimpleRequest.diagnoseCycle hooks request,
            SimpleRequest.noteCycleStep hooks request)
    | none => none

/-- A concrete kind over one Nat input that supplies both cycle-diagnostic
variants at once. -/
def kindWithBothVariants : KindCycleDecl 1 (fun _ => Nat) Nat Nat :=
  ⟨some ⟨id, id⟩, some ⟨fun s => s 0, 10, 11⟩⟩

/-- C4 counterexample: a kind providing both variants is not rejected; its
hooks resolve (to the direct variant), so the build accepts it. -/
theorem cycle_both_variants_accepted :
    kindWithBothVariants.direct.isSome = true ∧
    kindWithBothVariants.templated.isSome = true ∧
    (resolveCycleHooks kindWithBothVariants ⟨fun _ => 0⟩).isSome = true :=
  ⟨rfl, rfl, rfl⟩

/-- C4 amended: a kind providing neither variant is rejected at build time,
and that is the only rejected case; a kind providing both is accepted, the
direct variant taking precedence over the templated one. -/
theorem cycle_variant_resolution {n : Nat} {τ : Fin n → Type}
    {Loc DiagId : Type}
    (kind : KindCycleDecl n τ Loc DiagId) (request : SimpleRequest n τ) :
    (resolveCycleHooks kind request = none ↔
      kind.direct = none ∧ kind.templated = none) ∧
    (∀ d, kind.direct = some d →
      resolveCycleHooks kind request = some (d.diagnoseCycle, d.noteCycleStep)) := by
  obtain ⟨od, ot⟩ := kind
  cases od <;> cases ot <;>
    simp [resolveCycleHooks]

/-- Modelled from the spec: the identity-assignment machinery (TypeId.h) is
referenced by SimpleRequest.h but is not among the sources; per the
specification, local ids are assigned by list position, starting at a
zone-specific base offset. -/
def zoneLocalId (baseOffset position : Nat) : Nat :=
  baseOffset + position

/-- Modelled from the spec: the full identity of the type declared at a given
position of the zone list is the (zone id, local id) pair. -/
def zoneIdentityAt (zoneId baseOffset position : Nat) : TypeIdentity :=
  ⟨zoneId, zoneLocalId baseOffset position⟩

/-- The local ids a zone declaration list receives, one per entry, in list
order. -/
def zoneAssignedIds (baseOffset : Nat) (entries : List String) : List Nat :=
  (List.range entries.length).map (zoneLocalId baseOffset)

/-- The display name declared at a given position of a zone list. -/
def zoneNameAt (entries : List String) (position : Nat) : Option String :=
  entries[position]?

/-- The POLAR_TYPEID_NAMED entries of the C zone declaration list, in the
order CTypeIdZoneDefs.h declares them. -/
def cTypeIdZoneNamedEntries : List String :=
  ["UnsignedChar", "SignedChar", "Char", "Short", "UnsignedShort", "Int",
   "UnsignedInt", "Long", "UnsignedLong", "LongLong", "UnsignedLongLong",
   "Float", "Double", "Bool", "NullPtr", "Void", "String"]

theorem insertIdx_getElem?_shift {α : Type} (l : List α) (x : α) (p k : Nat)
    (hk : p + k < l.length) :
    (l.insertIdx p x)[p + k + 1]? = l[p + k]? := by
  have hplen : p ≤ l.length := by omega
  have hlen : (l.insertIdx p x).length = l.length + 1 :=
    List.length_insertIdx (a := x) p l hplen
  have h1 : p + k + 1 < (l.insertIdx p x).length := by omega
  rw [List.getElem?_eq_getElem h1, List.getElem?_eq_getElem hk,
      List.getElem_insertIdx_add_succ l x p k hk]

/-- C9: within a zone, ids are assigned by position from the base offset, so
they are pairwise distinct and densely consecutive in declaration order;
appending entries leaves every existing entry at its position with its id
unchanged, while inserting an entry moves every entry at or after the
insertion point one position later, where its assigned id is different; the
C zone list declares every type once, with ids dense from the base. -/
theorem zone_identity_assignment :
    (∀ b p1 p2 : Nat, p1 ≠ p2 → zoneLocalId b p1 ≠ zoneLocalId b p2) ∧
    (∀ (b : Nat) (entries : List String),
      zoneAssignedIds b entries = List.range' b entries.length) ∧
    (∀ (b : Nat) (l1 l2 : List String) (i : Nat), i < l1.length →
      (l1 ++ l2)[i]? = l1[i]? ∧
      (zoneAssignedIds b (l1 ++ l2))[i]? = (zoneAssignedIds b l1)[i]?) ∧
    (∀ (l : List String) (x : String) (p k : Nat), p + k < l.length →
      (l.insertIdx p x)[p + k + 1]? = l[p + k]? ∧
      ∀ b : Nat, zoneLocalId b (p + k + 1) ≠ zoneLocalId b (p + k)) ∧
    cTypeIdZoneNamedEntries.Nodup ∧
    (∀ b : Nat, zoneAssignedIds b cTypeIdZoneNamedEntries = List.range' b 17) := by
  have hids : ∀ (b : Nat) (entries : List String),
      zoneAssignedIds b entries = List.range' b entries.length := by
    intro b entries
    rw [List.range'_eq_map_range]
    rfl
  refine ⟨?_, hids, ?_, ?_, ?_, ?_⟩
  · intro b p1 p2 hne h
    simp only [zoneLocalId] at h
    exact hne (Nat.add_left_cancel h)
  · intro b l1 l2 i hi
    refine ⟨List.getElem?_append_left hi, ?_⟩
    rw [hids, hids, List.length_append]
    rw [List.getElem?_range' b 1 (by omega), List.getElem?_range' b 1 hi]
  · intro l x p k hk
    refine ⟨insertIdx_getElem?_shift l x p k hk, ?_⟩
    intro b
    simp [zoneLocalId]
  · decide
  · intro b
    rw [hids]
    rfl

/-- Modelled from the spec: requests of different kinds must never compare
equal.  In the source, operator== is declared inside one instantiation of the
SimpleRequest template, so it only ever compares two requests of the same
concrete kind; a comparison across kinds therefore requires the kind
identities to coincide before the stored tuples are compared. -/
def anyRequestEq {n : Nat} {τ : Fin n → Type} [∀ i, DecidableEq (τ i)]
    (k1 k2 : TypeIdentity) (r1 r2 : SimpleRequest n τ) : Bool :=
  decide (k1 = k2) && SimpleRequest.opEq r1 r2

/-- The memoization key the evaluator derives from a request: the kind
identity paired with the hash of the stored inputs. -/
def requestMemoKey (kindId : TypeIdentity) (storageHash : Nat) :
    TypeIdentity × Nat :=
  (kindId, storageHash)

/-- C6: two kinds declared at different positions of one zone, or in two
different zones, receive different (zone, local id) identities; requests of
those two kinds are never considered equal, even with element-wise identical
stored tuples, and the kind-identity component entering their hashes and
memoization keys differs. -/
theorem different_kinds_never_equal {n : Nat} {τ : Fin n → Type}
    [∀ i, DecidableEq (τ i)] (z1 b1 p1 z2 b2 p2 : Nat)
    (hdiff : (z1 = z2 ∧ b1 = b2 ∧ p1 ≠ p2) ∨ z1 ≠ z2)
    (r1 r2 : SimpleRequest n τ) :
    zoneIdentityAt z1 b1 p1 ≠ zoneIdentityAt z2 b2 p2 ∧
    anyRequestEq (zoneIdentityAt z1 b1 p1) (zoneIdentityAt z2 b2 p2)
      r1 r2 = false ∧
    (∀ h1 h2 : Nat,
      requestMemoKey (zoneIdentityAt z1 b1 p1) h1 ≠
        requestMemoKey (zoneIdentityAt z2 b2 p2) h2) := by
  have hne : zoneIdentityAt z1 b1 p1 ≠ zoneIdentityAt z2 b2 p2 := by
    intro h
    injection h with hz hl
    simp only [zoneLocalId] at hl
    rcases hdiff with ⟨hzz, hbb, hpp⟩ | hzz
    · exact hpp (by omega)
    · exact hzz hz
  refine ⟨hne, ?_, ?_⟩
  · simp [anyRequestEq, hne]
  · intro h1 h2 hcontra
    exact hne (congrArg Prod.fst hcontra)

/-- C6 witness: the kinds declared at positions 0 and 1 of one zone with base
offset 5 are never equal on two requests both storing the value 7. -/
theorem different_kinds_never_equal_witness :
    anyRequestEq (zoneIdentityAt 0 5 0) (zoneIdentityAt 0 5 1)
      (⟨fun _ => (7 : Nat)⟩ : SimpleRequest 1 (fun _ => Nat))
      ⟨fun _ => (7 : Nat)⟩ = false :=
  (different_kinds_never_equal 0 5 0 0 5 1 (Or.inl ⟨rfl, rfl, by decide⟩)
      ⟨fun _ => (7 : Nat)⟩ ⟨fun _ => (7 : Nat)⟩).2.1

/-- friend void simple_display(RawOutStream and out, const Derived and request):
writes TypeId<Derived>::getName() to the stream and then calls
simple_display(out, request.m_storage), the structural rendering of the
stored tuple.  The stream is modelled as the list of chunks written so far;
the tuple rendering routine lives outside these sources and is kept
abstract. -/
def simple_display {n : Nat} {τ : Fin n → Type} (kindName : String)
    (renderStorage : ((i : Fin n) → τ i) → String)
    (request : SimpleRequest n τ) (out : List String) : List String :=
  out ++ [kindName, renderStorage request.m_storage]

/-- C7: displaying a request whose kind is declared in the registry under
kindName writes exactly that name followed by the rendering of the stored
tuple; what it appends does not depend on what the stream already holds, and
a repeated rendering appends the identical text again.  Neither operator==
nor hash_value takes the name or the rendering routine as an input. -/
theorem simple_display_spec {n : Nat} {τ : Fin n → Type}
    (entries : List String) (p : Nat) (kindName : String)
    (render : ((i : Fin n) → τ i) → String) (request : SimpleRequest n τ)
    (out : List String)
    (hname : zoneNameAt entries p = some kindName) :
    simple_display kindName render request out =
      out ++ [kindName, render request.m_storage] ∧
    simple_display kindName render request out =
      out ++ simple_display kindName render request [] ∧
    simple_display kindName render request
        (simple_display kindName render request out) =
      out ++ [kindName, render request.m_storage] ++
        [kindName, render request.m_storage] :=
  ⟨rfl, by simp [simple_display], by simp [simple_display]⟩

/-- C7 witness: the kind declared at position 5 of the C zone list is named
Int; displaying one of its requests on an empty stream writes that name and
then the tuple rendering. -/
theorem simple_display_spec_witness :
    simple_display "Int" (fun _ => "(5)")
      (⟨fun _ => (5 : Nat)⟩ : SimpleRequest 1 (fun _ => Nat)) [] =
      [] ++ ["Int", "(5)"] :=
  (simple_display_spec cTypeIdZoneNamedEntries 5 "Int" (fun _ => "(5)")
      ⟨fun _ => (5 : Nat)⟩ [] rfl).1

/-- diagnoseCycle is a const member function: running it yields the engine it
wrote together with the receiver it leaves behind, which a const access path
cannot have written. -/
def runDiagnoseCycle {n : Nat} {τ : Fin n → Type} {Loc DiagId : Type}
    (hooks : TemplatedCycleHooks n τ Loc DiagId) (request : SimpleRequest n τ)
    (engine : List (EmittedDiag Loc DiagId ((i : Fin n) → τ i))) :
    SimpleRequest n τ × List (EmittedDiag Loc DiagId ((i : Fin n) → τ i)) :=
  (request, SimpleRequest.diagnoseCycle hooks request engine)

/-- noteCycleStep is a const member function, run the same way as
runDiagnoseCycle. -/
def runNoteCycleStep {n : Nat} {τ : Fin n → Type} {Loc DiagId : Type}
    (hooks : TemplatedCycleHooks n τ Loc DiagId) (request : SimpleRequest n τ)
    (engine : List (EmittedDiag Loc DiagId ((i : Fin n) → τ i))) :
    SimpleRequest n τ × List (EmittedDiag Loc DiagId ((i : Fin n) → τ i)) :=
  (request, SimpleRequest.noteCycleStep hooks request engine)

/-- C8: the constructor stores exactly the inputs it was given; the cycle
hooks leave the stored tuple unchanged; and equality, hashing, display and
evaluateRequest are functions of the stored tuple alone, so two requests with
the same stored tuple are indistinguishable under every public operation. -/
theorem request_storage_immutable {n : Nat} {τ : Fin n → Type}
    [∀ i, DecidableEq (τ i)] {E Error Output Loc DiagId : Type} :
    (∀ s : (i : Fin n) → τ i, (SimpleRequest.mk s).m_storage = s) ∧
    (∀ (hooks : TemplatedCycleHooks n τ Loc DiagId) (r : SimpleRequest n τ)
        (engine : List (EmittedDiag Loc DiagId ((i : Fin n) → τ i))),
      (runDiagnoseCycle hooks r engine).1.m_storage = r.m_storage ∧
      (runNoteCycleStep hooks r engine).1.m_storage = r.m_storage) ∧
    (∀ r1 r2 : SimpleRequest n τ, r1.m_storage = r2.m_storage →
      (∀ r3, SimpleRequest.opEq r1 r3 = SimpleRequest.opEq r2 r3) ∧
      (∀ (hashCombine : TypeIdentity → ((i : Fin n) → τ i) → Nat)
          (kindId : TypeIdentity),
        hash_value hashCombine kindId r1 = hash_value hashCombine kindId r2) ∧
      (∀ (kindName : String) (render : ((i : Fin n) → τ i) → String)
          (out : List String),
        simple_display kindName render r1 out =
          simple_display kindName render r2 out) ∧
      (∀ (derived : RequestKindEval E n τ Error Output) (evaluator : E)
          (h : callDerivedStaticAssert n = true),
        evaluateRequest derived r1 evaluator h =
          evaluateRequest derived r2 evaluator h)) := by
  refine ⟨fun s => rfl, fun hooks r engine => ⟨rfl, rfl⟩, ?_⟩
  rintro ⟨s1⟩ ⟨s2⟩ h
  cases h
  exact ⟨fun r3 => rfl, fun hashCombine kindId => rfl,
    fun kindName render out => rfl, fun derived evaluator h => rfl⟩

end Polar
